import Mathlib

/-!
Shallow embedding of the puzzle-solver front end's upload/job-sequencing
component (`src/web/src/pages/Sudoku.tsx`, `src/web/src/components/
SudokuUploader.tsx`, and the monolithic variant in `src/unnamed/part_003`).

The embedding models:
  * the WASM processing stub `processImageInWasm` (900 ms delay, AbortSignal);
  * the job sequencer of `Sudoku.handleImage` (and the identical completion
    logic of `part_003.handleFiles`): monotonic job ids, stale-result guard,
    AbortError swallowing, `finally`-guarded clearing of the processing flag;
  * the client-side downscaler `downscaleImage` (scale = min(1, maxSide/max),
    targets `Math.max(1, Math.round(side * scale))`), with JS number
    arithmetic embedded as exact rational arithmetic;
  * the acquisition/validation phase of the monolithic `handleFiles`
    (no-file early return, MIME check, 10 MiB cap, early preview, silent
    downscale fallback, cancel-and-replace submission);
  * the preview object-URL lifecycle (`createEffect` with previous-value
    accumulator and `onCleanup`).

Suspension points of the single-threaded event loop are made explicit:
the completion of an asynchronous processing call is a separate step
(`handleImageSettle`) applied to whatever state holds when it runs.
-/

/-! ## Visible state of the job sequencer (`Sudoku.tsx`) -/

/-- The visible state owned by the `Sudoku` page: `result`, `error`,
`isProcessing` signals plus the mutable `currentJob` counter.  The empty
string plays the role of JS's falsy `''` for `result`/`error`. -/
structure SeqState where
  result : String
  error : String
  isProcessing : Bool
  currentJob : Nat
deriving DecidableEq, Repr

/-- Settlement of one processing promise: fulfilled with a string, or
rejected with an exception carrying a `name` and a `message`
(`DOMException('Aborted', 'AbortError')` has name `AbortError`). -/
inductive Outcome where
  | success (res : String)
  | failure (name : String) (msg : String)
deriving DecidableEq, Repr

/-- The result string built by the stub:
`WASM stub ✓ (job #${jobId}). Bytes: ${imageBlob.size}`. -/
def wasmEcho (jobId blobSize : Nat) : String :=
  "WASM stub ✓ (job #" ++ toString jobId ++ "). Bytes: " ++ toString blobSize

/-- How a call of the stub settles: fulfilled after `afterMs` milliseconds,
or rejected with an `AbortError` carrying `message`. -/
inductive ProcResult where
  | resolved (res : String) (afterMs : Nat)
  | rejectedAbort (message : String)
deriving DecidableEq, Repr

/-- `processImageInWasm` (`Sudoku.tsx` lines 9-27 / `part_003` lines 11-29):
starts a 900 ms timer; if the abort signal fires before the timer
(`abortAt = some t`, `t < 900`; `t = 0` models a signal already aborted at
the call) the timer is cleared and the promise rejects with
`DOMException('Aborted', 'AbortError')`; otherwise it resolves after 900 ms
with the echo string.  `abortAt = none` means the signal never fires. -/
def processImageInWasm (blobSize jobId : Nat) (abortAt : Option Nat) : ProcResult :=
  match abortAt with
  | none => .resolved (wasmEcho jobId blobSize) 900
  | some t =>
    if t < 900 then .rejectedAbort "Aborted"
    else .resolved (wasmEcho jobId blobSize) 900

/-- View a settled stub call as the outcome seen by the `try`/`catch`. -/
def toOutcome : ProcResult → Outcome
  | .resolved res _ => .success res
  | .rejectedAbort m => .failure "AbortError" m

/-- The synchronous prefix of `Sudoku.handleImage` (lines 262-268): clear
`error` and `result`, abort the previous controller (no visible-state
effect), mint `jobId = ++currentJob`, install a fresh controller, and set
`isProcessing`. -/
def handleImageStart (st : SeqState) : SeqState :=
  { result := "", error := "", isProcessing := true, currentJob := st.currentJob + 1 }

/-- The continuation of `Sudoku.handleImage` after `await processImageInWasm`
(lines 269-278), applied to the state current when the completion runs:
- fulfilled: `if (jobId !== currentJob) return` else `setResult(res)`;
- rejected with `AbortError`: plain `return`;
- rejected otherwise: `setError(e.message || 'Image processing error')`
  (JS `||` treats the empty message as falsy);
- `finally`: `if (jobId === currentJob) setIsProcessing(false)`, which runs
  on every path, including after the early returns. -/
def handleImageSettle (o : Outcome) (jobId : Nat) (st : SeqState) : SeqState :=
  match o with
  | .success res =>
    if jobId = st.currentJob then
      { st with result := res, isProcessing := false }
    else st
  | .failure name msg =>
    if name = "AbortError" then
      if jobId = st.currentJob then { st with isProcessing := false } else st
    else
      let st1 := { st with error := if msg = "" then "Image processing error" else msg }
      if jobId = st1.currentJob then { st1 with isProcessing := false } else st1

/-! ## Downscaler (`SudokuUploader.downscaleImage`) -/

/-- Pixel dimensions obtained from `createImageBitmap`. -/
structure Bitmap where
  width : Nat
  height : Nat
deriving DecidableEq, Repr

/-- What `downscaleImage` returns: the untouched original `File` reference,
or a freshly encoded blob rendered at `w × h` pixels. -/
inductive DownscaleResult where
  | original
  | scaled (w h : Nat)
deriving DecidableEq, Repr

/-- `scale = Math.min(1, maxSide / Math.max(width, height))`, with JS float
division embedded as exact division in `ℚ`.  (For `m = 0` JS yields
`maxSide / 0 = Infinity` and `min(1, Infinity) = 1`; the `m = 0` branch
mirrors that, though `createImageBitmap` never produces a 0×0 bitmap.) -/
def scaleFactor (maxSide m : Nat) : ℚ :=
  if m = 0 then 1 else min 1 ((maxSide : ℚ) / (m : ℚ))

/-- `Math.max(1, Math.round(side * scale))`.  Mathlib's `round` is
`⌊x + 1/2⌋`, which agrees with JS `Math.round` on the nonnegative values
arising here. -/
def targetSide (side : Nat) (scale : ℚ) : Nat :=
  (max 1 (round ((side : Nat) * scale : ℚ))).toNat

/-- `downscaleImage` (`SudokuUploader.tsx` lines 15-60 / `part_003` lines
42-87) after a successful decode of a bitmap of the given dimensions: if
`scale === 1` the original file is returned unchanged; otherwise an
off-screen canvas of `targetW × targetH` is rendered and encoded.  The
repository calls it with the default `maxSide = 1536`. -/
def downscaleImage (bm : Bitmap) (maxSide : Nat) : DownscaleResult :=
  let s := scaleFactor maxSide (max bm.width bm.height)
  if s = 1 then .original
  else .scaled (targetSide bm.width s) (targetSide bm.height s)

/-! ## Acquisition/validation (`part_003.handleFiles`) -/

/-- Character-level prefix test, used to embed `String.startsWith`. -/
def charsStartWith : List Char → List Char → Bool
  | _, [] => true
  | [], _ :: _ => false
  | c :: cs, p :: ps => decide (c = p) && charsStartWith cs ps

/-- `s.startsWith pre`, embedded over the character lists of the two strings
so that proofs can evaluate it. -/
def strStartsWith (s pre : String) : Bool := charsStartWith s.data pre.data

/-- The candidate `File`: its MIME `type` string and byte `size`. -/
structure FileDesc where
  type : String
  size : Nat
deriving DecidableEq, Repr

/-- A blob handed to processing: either the original `File` reference or a
re-encoded blob produced by the downscaler. -/
inductive Blob where
  | file (f : FileDesc)
  | encoded (bytes : Nat)
deriving DecidableEq, Repr

/-- `const MAX_BYTES = 10 * 1024 * 1024` (10 MiB hard stop). -/
def MAX_BYTES : Nat := 10 * 1024 * 1024

/-- Error message for a non-image MIME type. -/
def typeErrorMsg : String := "Please upload an image file (JPEG/PNG/WebP)."

/-- Error message for an oversized file; `(MAX_BYTES / (1024 * 1024)).toFixed(0)`
is `10`. -/
def sizeErrorMsg : String := "File is too large (> 10 MB)."

/-- The state owned by the monolithic `SudokuUploader` (`part_003`):
the `Sudoku` page's visible state plus the preview URL and the set of job
ids whose `AbortController` has been aborted.  Preview object URLs are
abstracted as numbers (`URL.createObjectURL` returns a fresh URL on every
call). -/
structure UploaderState where
  previewUrl : Option Nat
  result : String
  error : String
  isProcessing : Bool
  currentJob : Nat
  abortedJobs : List Nat
deriving DecidableEq, Repr

/-- The component's initial state. -/
def initUploader : UploaderState :=
  { previewUrl := none, result := "", error := "", isProcessing := false,
    currentJob := 0, abortedJobs := [] }

/-- Everything observable about one `handleFiles` run, up to the submission
of the processing call: the state when control reaches the `await
processImageInWasm`, the blob and job id passed to it (`none` when
validation stopped the pipeline), whether `downscaleImage` was invoked, and
whether the downscale-failure warning was logged. -/
structure HandleFilesResult where
  state : UploaderState
  submitted : Option (Blob × Nat)
  downscaleTried : Bool
  warned : Bool
deriving DecidableEq, Repr

/-- `part_003.handleFiles` (lines 121-157) up to the dispatch of
`processImageInWasm`.  `files` is `files?.[0]`; `objectUrl` is the fresh URL
minted by `URL.createObjectURL(file)`; `ds` is how `await
downscaleImage(file)` settles (`Except.error` models a thrown exception,
caught and logged by `console.warn`).  Control flow of the source:
no file → plain `return`; clear `error`/`result`; MIME check; size check;
early preview; downscale with silent fallback to the original file;
`currentAbort?.abort()` (a no-op before the first job, when `currentAbort`
is still `null`); `jobId = ++currentJob`; `setIsProcessing(true)`; dispatch. -/
def handleFiles (files : Option FileDesc) (objectUrl : Nat)
    (ds : Except String Blob) (st : UploaderState) : HandleFilesResult :=
  match files with
  | none => ⟨st, none, false, false⟩
  | some file =>
    let st1 := { st with error := "", result := "" }
    if ¬ strStartsWith file.type "image/" then
      ⟨{ st1 with error := typeErrorMsg }, none, false, false⟩
    else if MAX_BYTES < file.size then
      ⟨{ st1 with error := sizeErrorMsg }, none, false, false⟩
    else
      let st2 := { st1 with previewUrl := some objectUrl }
      let toProcess : Blob := match ds with
        | .ok b => b
        | .error _ => .file file
      let warned : Bool := match ds with
        | .ok _ => false
        | .error _ => true
      let st3 := { st2 with
        abortedJobs :=
          if st2.currentJob = 0 then st2.abortedJobs
          else st2.currentJob :: st2.abortedJobs,
        currentJob := st2.currentJob + 1,
        isProcessing := true }
      ⟨st3, some (toProcess, st.currentJob + 1), true, warned⟩

/-! ## Preview object-URL lifecycle (`SudokuUploader` lines 78-86) -/

/-- One run of the `createEffect` body after `setImagePreviewUrl(u)`: the
accumulator holds the previous URL; `if (prev && prev !== current)
URL.revokeObjectURL(prev)`.  State: (previous URL, URLs revoked so far, in
order). -/
def previewStep (st : Option Nat × List Nat) (u : Nat) : Option Nat × List Nat :=
  match st.1 with
  | some p => if p = u then (some u, st.2) else (some u, st.2 ++ [p])
  | none => (some u, st.2)

/-- The effect runs once per preview-URL update, in order, starting from the
initial `null` accumulator and an empty revocation log. -/
def runPreview (us : List Nat) : Option Nat × List Nat :=
  us.foldl previewStep (none, [])

/-- The `onCleanup` handler: revoke whatever URL is currently held.  Returns
the complete revocation log of the component's lifetime. -/
def previewCleanup (st : Option Nat × List Nat) : List Nat :=
  match st.1 with
  | some u => st.2 ++ [u]
  | none => st.2

/-! ## Helper lemmas -/

/-- Folding the preview effect from a held URL `p` that is fresh (not among
the upcoming URLs), with `revs` already revoked: after the remaining updates
and the cleanup, the complete revocation log is `revs ++ p :: us`. -/
theorem previewFold_cleanup (us : List Nat) (p : Nat) (revs : List Nat)
    (hp : p ∉ us) (hnd : us.Nodup) :
    previewCleanup (us.foldl previewStep (some p, revs)) = revs ++ p :: us := by
  induction us generalizing p revs with
  | nil => simp [previewCleanup]
  | cons u rest ih =>
    have hpu : p ≠ u := by
      intro hcontra
      exact hp (hcontra ▸ List.mem_cons_self u rest)
    have hprest : u ∉ rest := (List.nodup_cons.mp hnd).1
    have hndrest : rest.Nodup := (List.nodup_cons.mp hnd).2
    rw [List.foldl_cons]
    have hstep : previewStep (some p, revs) u = (some u, revs ++ [p]) := by
      simp [previewStep, hpu]
    rw [hstep, ih u (revs ++ [p]) hprest hndrest]
    simp

/-- While the effect runs, the currently held URL has never been revoked:
invariant form, starting from held URL `p` and log `revs`. -/
theorem previewFold_current_fresh (us : List Nat) (p : Nat) (revs : List Nat)
    (hp : p ∉ us) (hpr : p ∉ revs) (hnd : us.Nodup)
    (hall : ∀ q ∈ us, q ∉ revs) :
    ∀ u, (us.foldl previewStep (some p, revs)).1 = some u →
      u ∉ (us.foldl previewStep (some p, revs)).2 := by
  induction us generalizing p revs with
  | nil =>
    intro u hu
    simp at hu
    subst hu
    simpa using hpr
  | cons v rest ih =>
    have hpv : p ≠ v := by
      intro hcontra
      exact hp (hcontra ▸ List.mem_cons_self v rest)
    have hvrest : v ∉ rest := (List.nodup_cons.mp hnd).1
    have hndrest : rest.Nodup := (List.nodup_cons.mp hnd).2
    rw [List.foldl_cons]
    have hstep : previewStep (some p, revs) v = (some v, revs ++ [p]) := by
      simp [previewStep, hpv]
    rw [hstep]
    refine ih v (revs ++ [p]) hvrest ?_ hndrest ?_
    · have hvr : v ∉ revs := hall v (List.mem_cons_self v rest)
      simp [hvr, hpv.symm]
    · intro q hq
      have hqr : q ∉ revs := hall q (List.mem_cons.mpr (Or.inr hq))
      have hqp : q ≠ p := by
        intro hcontra
        rw [hcontra] at hq
        exact hp (List.mem_cons.mpr (Or.inr hq))
      simp [hqr, hqp]

/-- The clamped rounded side never exceeds `maxSide` when the side is at
most the larger dimension `m` and the scale is `maxSide / m`. -/
theorem targetSide_le (side m maxSide : Nat) (hm : side ≤ m) (h0 : 0 < m)
    (hms : 0 < maxSide) :
    targetSide side ((maxSide : ℚ) / (m : ℚ)) ≤ maxSide := by
  have hmq : (0 : ℚ) < (m : ℚ) := by exact_mod_cast h0
  have hle : (side : ℚ) * ((maxSide : ℚ) / (m : ℚ)) ≤ (maxSide : ℚ) := by
    rw [← mul_div_assoc, div_le_iff₀ hmq]
    have hsm : (side : ℚ) ≤ (m : ℚ) := by exact_mod_cast hm
    have hmsq : (0 : ℚ) ≤ (maxSide : ℚ) := by positivity
    nlinarith
  have hround : round ((side : ℚ) * ((maxSide : ℚ) / (m : ℚ))) ≤ (maxSide : ℤ) := by
    have hfl : round ((side : ℚ) * ((maxSide : ℚ) / (m : ℚ)))
        ≤ round ((maxSide : ℚ)) := by
      rw [round_eq, round_eq]
      exact Int.floor_le_floor (by linarith)
    simpa [round_natCast] using hfl
  have h1 : (1 : ℤ) ≤ (maxSide : ℤ) := by exact_mod_cast hms
  rw [targetSide]
  rcases le_total 1 (round ((side : ℚ) * ((maxSide : ℚ) / (m : ℚ)))) with hc | hc
  · rw [max_eq_right hc]
    omega
  · rw [max_eq_left hc]
    omega

/-! ## Claim theorems -/

/-- Claim C1: a completion of the processing stub that arrives when its job
id no longer equals the current job counter mutates no visible state, and in
the submit-A-then-B-before-A-resolves scenario only B's outcome ever reaches
the visible result/error state (A, aborted by B's submission, settles as a
discarded `AbortError`). -/
theorem stale_completion_discarded (st : SeqState) (jobId blobSize : Nat)
    (abortAt : Option Nat) (h : jobId ≠ st.currentJob) :
    handleImageSettle (toOutcome (processImageInWasm blobSize jobId abortAt)) jobId st = st ∧
    ∀ (st0 : SeqState) (sa sb : Nat),
      handleImageSettle
          (toOutcome (processImageInWasm sa (st0.currentJob + 1) (some 0)))
          (st0.currentJob + 1) (handleImageStart (handleImageStart st0))
        = handleImageStart (handleImageStart st0) ∧
      (handleImageSettle (toOutcome (processImageInWasm sb (st0.currentJob + 1 + 1) none))
          (st0.currentJob + 1 + 1)
          (handleImageSettle
            (toOutcome (processImageInWasm sa (st0.currentJob + 1) (some 0)))
            (st0.currentJob + 1) (handleImageStart (handleImageStart st0)))).result
        = wasmEcho (st0.currentJob + 1 + 1) sb ∧
      (handleImageSettle (toOutcome (processImageInWasm sb (st0.currentJob + 1 + 1) none))
          (st0.currentJob + 1 + 1)
          (handleImageSettle
            (toOutcome (processImageInWasm sa (st0.currentJob + 1) (some 0)))
            (st0.currentJob + 1) (handleImageStart (handleImageStart st0)))).error
        = "" := by
  constructor
  · cases abortAt with
    | none => simp [processImageInWasm, toOutcome, handleImageSettle, h]
    | some t =>
      by_cases ht : t < 900 <;>
        simp [processImageInWasm, toOutcome, handleImageSettle, h, ht]
  · intro st0 sa sb
    have hne : st0.currentJob + 1 ≠ st0.currentJob + 1 + 1 := by omega
    simp [processImageInWasm, toOutcome, handleImageSettle, handleImageStart, hne]

/-- Claim C1 witness: a concrete stale abort completion leaves the concrete
state untouched. -/
theorem stale_completion_discarded_witness :
    handleImageSettle (toOutcome (processImageInWasm 7 1 (some 0))) 1
      ⟨"", "", true, 2⟩ = ⟨"", "", true, 2⟩ :=
  (stale_completion_discarded ⟨"", "", true, 2⟩ 1 7 (some 0) (by decide)).1

/-- Claim C2: a job that settles with an `AbortError` rejection never
changes the visible error state, whatever its id and the current state. -/
theorem abort_never_sets_error (st : SeqState) (jobId : Nat) (msg : String) :
    (handleImageSettle (.failure "AbortError" msg) jobId st).error = st.error := by
  by_cases h : jobId = st.currentJob <;> simp [handleImageSettle, h]

/-- Claim C8: the visible processing flag is untouched by any completion of
a superseded job: whatever the outcome, the `finally` clause clears the flag
only when the completing job is still the current one. -/
theorem processing_flag_stale_guard (st : SeqState) (o : Outcome) (jobId : Nat)
    (h : jobId ≠ st.currentJob) :
    (handleImageSettle o jobId st).isProcessing = st.isProcessing := by
  cases o with
  | success res => simp [handleImageSettle, h]
  | failure name msg =>
    by_cases hn : name = "AbortError" <;> simp [handleImageSettle, hn, h]

/-- Claim C8 witness: a stale non-abort failure leaves the flag set. -/
theorem processing_flag_stale_guard_witness :
    (handleImageSettle (Outcome.failure "TypeError" "boom") 1
      ⟨"", "", true, 2⟩).isProcessing = true :=
  processing_flag_stale_guard ⟨"", "", true, 2⟩ (.failure "TypeError" "boom") 1 (by decide)

/-- Claim C2 and C7 share the cancellation model; Claim C7: with no abort
the stub resolves after 900 ms with the echo of the job id and the blob
size; with the signal already aborted at the call or firing during the
wait it rejects with an `AbortError` and never resolves with a result. -/
theorem processing_stub_spec (blobSize jobId : Nat) :
    processImageInWasm blobSize jobId none
      = .resolved (wasmEcho jobId blobSize) 900 ∧
    (∀ t, t < 900 → processImageInWasm blobSize jobId (some t)
      = .rejectedAbort "Aborted") ∧
    (∀ t, t < 900 → ∀ s d, processImageInWasm blobSize jobId (some t)
      ≠ .resolved s d) := by
  refine ⟨rfl, ?_, ?_⟩
  · intro t ht
    simp [processImageInWasm, ht]
  · intro t ht s d
    simp [processImageInWasm, ht]

/-- Claim C7 witness: concrete resolution and concrete rejection. -/
theorem processing_stub_spec_witness :
    processImageInWasm 5 3 none = .resolved (wasmEcho 3 5) 900 ∧
    processImageInWasm 5 3 (some 0) = .rejectedAbort "Aborted" :=
  ⟨(processing_stub_spec 5 3).1, (processing_stub_spec 5 3).2.1 0 (by decide)⟩

/-- Claim C3 counterexample: with no file present, `handleFiles` returns
without reporting any user-visible error (the whole result, state included,
is untouched), contradicting the claim that every rejection reports one. -/
theorem no_file_rejects_silently :
    (handleFiles none 0 (Except.error "decode failed") initUploader).submitted = none ∧
    ¬ (handleFiles none 0 (Except.error "decode failed") initUploader).state.error ≠ "" := by
  decide

/-- Claim C3 as amended: acquisition proceeds exactly when a file is present
with an `image/` MIME type and a size within the 10 MiB cap; the wrong-type
and oversize rejections report their respective user-visible messages
(oversize a size-specific one) and create no preview and start no downscale
or job; the no-file case rejects silently, with no state change at all. -/
theorem acquisition_validation (files : Option FileDesc) (url : Nat)
    (ds : Except String Blob) (st : UploaderState) :
    ((handleFiles files url ds st).submitted ≠ none ↔
      ∃ f, files = some f ∧ strStartsWith f.type "image/" = true ∧
        f.size ≤ MAX_BYTES) ∧
    (files = none → handleFiles files url ds st = ⟨st, none, false, false⟩) ∧
    (∀ f, files = some f → strStartsWith f.type "image/" = false →
      (handleFiles files url ds st).state.error = typeErrorMsg ∧
      (handleFiles files url ds st).submitted = none ∧
      (handleFiles files url ds st).downscaleTried = false ∧
      (handleFiles files url ds st).state.previewUrl = st.previewUrl) ∧
    (∀ f, files = some f → strStartsWith f.type "image/" = true →
      MAX_BYTES < f.size →
      (handleFiles files url ds st).state.error = sizeErrorMsg ∧
      (handleFiles files url ds st).submitted = none ∧
      (handleFiles files url ds st).downscaleTried = false ∧
      (handleFiles files url ds st).state.previewUrl = st.previewUrl) := by
  cases files with
  | none =>
    refine ⟨by simp [handleFiles], by simp [handleFiles], ?_, ?_⟩
    · intro g hg
      exact absurd hg (by simp)
    · intro g hg
      exact absurd hg (by simp)
  | some f =>
    by_cases h1 : strStartsWith f.type "image/" <;> by_cases h2 : MAX_BYTES < f.size
    · refine ⟨?_, by simp, ?_, ?_⟩
      · simp [handleFiles, h1, h2]
      · intro g hg hbad
        rw [Option.some.injEq] at hg
        subst hg
        simp [h1] at hbad
      · intro g hg _ _
        rw [Option.some.injEq] at hg
        subst hg
        simp [handleFiles, h1, h2]
    · refine ⟨?_, by simp, ?_, ?_⟩
      · cases ds <;> simp [handleFiles, h1, h2] <;> omega
      · intro g hg hbad
        rw [Option.some.injEq] at hg
        subst hg
        simp [h1] at hbad
      · intro g hg _ hbig
        rw [Option.some.injEq] at hg
        subst hg
        exact absurd hbig h2
    · refine ⟨?_, by simp, ?_, ?_⟩
      · simp [handleFiles, h1]
      · intro g hg _
        rw [Option.some.injEq] at hg
        subst hg
        simp [handleFiles, h1]
      · intro g hg hgood _
        rw [Option.some.injEq] at hg
        subst hg
        simp [hgood] at h1
    · refine ⟨?_, by simp, ?_, ?_⟩
      · simp [handleFiles, h1]
      · intro g hg _
        rw [Option.some.injEq] at hg
        subst hg
        simp [handleFiles, h1]
      · intro g hg hgood _
        rw [Option.some.injEq] at hg
        subst hg
        simp [hgood] at h1

/-- Claim C3 witness: a concrete wrong-type file is rejected with the
type-specific message. -/
theorem acquisition_validation_witness :
    (handleFiles (some ⟨"text/plain", 5⟩) 0 (Except.ok (Blob.encoded 1))
      initUploader).state.error = typeErrorMsg :=
  ((acquisition_validation (some ⟨"text/plain", 5⟩) 0 (Except.ok (Blob.encoded 1))
    initUploader).2.2.1 ⟨"text/plain", 5⟩ rfl (by decide)).1

/-- Claim C4: an image whose larger pixel dimension is at most `maxSide`
comes back as the untouched original file reference — no re-encoding. -/
theorem downscale_within_bound_original (bm : Bitmap) (maxSide : Nat)
    (h : max bm.width bm.height ≤ maxSide) :
    downscaleImage bm maxSide = .original := by
  rw [downscaleImage, scaleFactor]
  by_cases hm : max bm.width bm.height = 0
  · simp [hm]
  · have h0 : (0 : ℚ) < (max bm.width bm.height : ℚ) := by
      exact_mod_cast Nat.pos_of_ne_zero hm
    have hge : (1 : ℚ) ≤ (maxSide : ℚ) / (max bm.width bm.height : ℚ) := by
      rw [le_div_iff₀ h0]
      simpa using (by exact_mod_cast h :
        ((max bm.width bm.height : ℚ)) ≤ (maxSide : ℚ))
    simp [hm, min_eq_left hge]

/-- Claim C4 witness: an 800×600 image is returned unchanged. -/
theorem downscale_within_bound_original_witness :
    downscaleImage ⟨800, 600⟩ 1536 = .original :=
  downscale_within_bound_original ⟨800, 600⟩ 1536 (by decide)

/-- Claim C5 counterexample: for a 1×10000 image with `maxSide = 1536` the
output raster is not `round(w·scale) × round(h·scale)`: the code clamps each
side with `Math.max(1, ·)`, and `round(1 · 1536/10000) = 0` while the
produced width is 1. -/
theorem downscale_round_formula_cex :
    downscaleImage ⟨1, 10000⟩ 1536 ≠
      DownscaleResult.scaled (round ((1 : ℚ) * scaleFactor 1536 10000)).toNat
        (round ((10000 : ℚ) * scaleFactor 1536 10000)).toNat := by
  norm_num [downscaleImage, scaleFactor, targetSide, min_def, round_eq]

/-- Claim C5 as amended: for `max(w,h) > maxSide > 0` the downscaler uses
`scale = min(1, maxSide/max(w,h))` and produces an output raster of exactly
`max(1, round(w·scale)) × max(1, round(h·scale))` pixels, so the longer
output side is at most `maxSide` and the aspect ratio is preserved within
rounding (both sides share the one scale factor). -/
theorem downscale_bounds (w h maxSide : Nat) (hms : 0 < maxSide)
    (hbig : maxSide < max w h) :
    downscaleImage ⟨w, h⟩ maxSide =
      .scaled (targetSide w (scaleFactor maxSide (max w h)))
        (targetSide h (scaleFactor maxSide (max w h))) ∧
    targetSide w (scaleFactor maxSide (max w h)) ≤ maxSide ∧
    targetSide h (scaleFactor maxSide (max w h)) ≤ maxSide := by
  have hm0 : max w h ≠ 0 := by omega
  have hmq : (0 : ℚ) < ((max w h : Nat) : ℚ) := by
    exact_mod_cast Nat.pos_of_ne_zero hm0
  have hlt : (maxSide : ℚ) / ((max w h : Nat) : ℚ) < 1 := by
    rw [div_lt_one hmq]
    exact_mod_cast hbig
  have hsf : scaleFactor maxSide (max w h) = (maxSide : ℚ) / ((max w h : Nat) : ℚ) := by
    rw [scaleFactor, if_neg hm0, min_eq_right hlt.le]
  refine ⟨?_, ?_, ?_⟩
  · rw [downscaleImage]
    simp only [hsf]
    rw [if_neg (by exact ne_of_lt hlt)]
  · rw [hsf]
    exact targetSide_le w (max w h) maxSide (Nat.le_max_left w h)
      (Nat.pos_of_ne_zero hm0) hms
  · rw [hsf]
    exact targetSide_le h (max w h) maxSide (Nat.le_max_right w h)
      (Nat.pos_of_ne_zero hm0) hms

/-- Claim C5 witness: a 3000×2000 image with `maxSide = 1536` becomes
1536×1024. -/
theorem downscale_bounds_witness :
    downscaleImage ⟨3000, 2000⟩ 1536 = .scaled 1536 1024 := by
  have hk := downscale_bounds 3000 2000 1536 (by norm_num) (by norm_num)
  rw [hk.1]
  norm_num [targetSide, scaleFactor, min_def, round_eq]
  omega

/-- Claim C6: over any lifetime in which the preview URL is set to a
sequence of fresh (pairwise-distinct) object URLs, the complete revocation
log — replacements plus teardown — is exactly that sequence, so every held
URL is revoked exactly once (never leaked, never revoked twice); and at
every intermediate point the currently displayed URL is not among the
already-revoked ones. -/
theorem preview_url_revoked_exactly_once (us : List Nat) (hnd : us.Nodup) :
    previewCleanup (runPreview us) = us ∧
    ∀ vs ws, us = vs ++ ws → ∀ u, (runPreview vs).1 = some u →
      u ∉ (runPreview vs).2 := by
  constructor
  · cases us with
    | nil => rfl
    | cons u rest =>
      rw [runPreview, List.foldl_cons]
      have hstep : previewStep (none, []) u = (some u, []) := rfl
      rw [hstep]
      have hnd' := List.nodup_cons.mp hnd
      rw [previewFold_cleanup rest u [] hnd'.1 hnd'.2]
      simp
  · intro vs ws hsplit u
    have hvs : vs.Nodup := by
      rw [hsplit] at hnd
      exact (List.nodup_append.mp hnd).1
    cases vs with
    | nil => simp [runPreview]
    | cons v rest =>
      rw [runPreview, List.foldl_cons]
      have hstep : previewStep (none, []) v = (some v, []) := rfl
      rw [hstep]
      have hnd' := List.nodup_cons.mp hvs
      exact previewFold_current_fresh rest v [] hnd'.1 (by simp) hnd'.2
        (by simp) u

/-- Claim C6 witness: three successive fresh preview URLs are revoked
exactly once each, in order. -/
theorem preview_url_revoked_exactly_once_witness :
    previewCleanup (runPreview [10, 11, 12]) = [10, 11, 12] :=
  (preview_url_revoked_exactly_once [10, 11, 12] (by decide)).1

/-- Claim C9: when the downscale step throws, the failure is non-fatal: the
blob submitted to processing is exactly the original file, the warning is
logged, and no user-visible error is set for it. -/
theorem downscale_failure_fallback (f : FileDesc) (url : Nat) (e : String)
    (st : UploaderState) (htype : strStartsWith f.type "image/" = true)
    (hsize : f.size ≤ MAX_BYTES) :
    (handleFiles (some f) url (Except.error e) st).submitted
      = some (Blob.file f, st.currentJob + 1) ∧
    (handleFiles (some f) url (Except.error e) st).warned = true ∧
    (handleFiles (some f) url (Except.error e) st).state.error = "" := by
  simp [handleFiles, htype, Nat.not_lt.mpr hsize]

/-- Claim C9 witness: a concrete accepted file whose downscale throws is
submitted unscaled. -/
theorem downscale_failure_fallback_witness :
    (handleFiles (some ⟨"image/png", 100⟩) 7 (Except.error "decode")
      initUploader).submitted = some (Blob.file ⟨"image/png", 100⟩, 1) :=
  (downscale_failure_fallback ⟨"image/png", 100⟩ 7 "decode" initUploader
    (by decide) (by decide)).1

/-- Claim C10: any `handleFiles` call with a file present clears the visible
result and error before validation, so the final error is determined by the
new file alone (the type message, the size message, or empty) and the final
result is empty — the previously displayed result and error are erased even
when the new file is rejected. -/
theorem handleFiles_clears_state (f : FileDesc) (url : Nat)
    (ds : Except String Blob) (st : UploaderState) :
    (handleFiles (some f) url ds st).state.result = "" ∧
    (handleFiles (some f) url ds st).state.error =
      (if ¬ strStartsWith f.type "image/" then typeErrorMsg
       else if MAX_BYTES < f.size then sizeErrorMsg else "") := by
  by_cases h1 : strStartsWith f.type "image/" <;>
    by_cases h2 : MAX_BYTES < f.size <;>
      simp [handleFiles, h1, h2]
